import Mathlib

/-!
Verification of the `sonifai-backend` transcription service (`src/main.py`).

The whole program is one FastAPI handler, `transcribe`, plus module-level
configuration.  We embed it shallowly:

* paths are `String`s; `os.path.join` and `os.path.splitext` are translated
  from CPython's `posixpath` implementation;
* the filesystem is a set of paths, `FS := String → Bool`;
* each fallible external step of the pipeline (saving the upload, `load_audio`,
  `transcriptor.transcribe`, `output_dict_to_midi_events`,
  `write_events_to_midi`) is driven by an oracle field of `RequestEnv`:
  `none` means the step succeeds, `some e` means it raises an exception whose
  `str` is `e`; `removeFails` makes the `os.remove` in the `finally` block
  raise;
* the handler `transcribe` mirrors the `try/except/finally` control flow of
  `src/main.py` lines 30-91 and returns a `Response` together with the final
  filesystem.
-/

namespace Main

/-- `UPLOAD_DIR = "uploads"` (src/main.py line 26). -/
def UPLOAD_DIR : String := "uploads"

/-- `SENSITIVITY_THRESHOLD = 0.2` (src/main.py line 16).  The literal `0.2` is
represented as the rational `1/5`; the claims compare configuration literals
for equality, never do float arithmetic, and the literals `0.2` and `0.5`
keep their identities and distinctions under this representation. -/
def SENSITIVITY_THRESHOLD : ℚ := 1/5

/-- The directories the process creates at startup: `os.makedirs(UPLOAD_DIR,
exist_ok=True)` (src/main.py line 27) is the only directory creation. -/
def startupDirs : List String := [UPLOAD_DIR]

/-- Splits a list at the LAST occurrence of `sep`: returns
`some (before, sep :: after)` where `after` is `sep`-free, or `none` when
`sep` does not occur.  This is the `p.rfind(sep)` index computation of
CPython's `posixpath`, in structural form. -/
def splitLastChar (sep : Char) : List Char → Option (List Char × List Char)
  | [] => none
  | c :: cs =>
    match splitLastChar sep cs with
    | some (a, e) => some (c :: a, e)
    | none => if c = sep then some ([], c :: cs) else none

/-- `posixpath.splitext` restricted to a basename (no `/` handling): split at
the last dot, except that dots that are part of a run of leading dots never
start an extension (CPython's `filenameIndex` loop: the split happens only if
some non-dot character precedes the last dot). -/
def splitBase (b : List Char) : List Char × List Char :=
  match splitLastChar '.' (b.dropWhile (· == '.')) with
  | some (a, e) => (b.takeWhile (· == '.') ++ a, e)
  | none => (b, [])

/-- `posixpath.splitext` on character lists: locate the basename after the
last `/`, then apply `splitBase` to it. -/
def splitextList (p : List Char) : List Char × List Char :=
  match splitLastChar '/' p with
  | some (d, e) =>
    let r := splitBase (e.drop 1)
    (d ++ '/' :: r.1, r.2)
  | none => splitBase p

namespace os.path

/-- `os.path.splitext` (POSIX). -/
def splitext (p : String) : String × String :=
  let r := splitextList p.toList
  (String.mk r.1, String.mk r.2)

/-- `os.path.join a b` (POSIX) for the one call site
`os.path.join(UPLOAD_DIR, input_filename)`: an absolute second component
replaces the base, otherwise the parts are joined with `/`.  (The general
`posixpath.join` also special-cases a base that is empty or ends in `/`;
`UPLOAD_DIR = "uploads"` is neither, so this definition agrees with it at the
call site for every second component.) -/
def join (a b : String) : String :=
  match b.toList with
  | '/' :: _ => b
  | _ => a ++ "/" ++ b

end os.path

/-- `input_filename = f"{uuid.uuid4()}_{audio.filename}"` (src/main.py
line 32), as a function of the generated uuid string and the upload's
original filename. -/
def input_filename (u f : String) : String := u ++ "_" ++ f

/-- `input_path = os.path.join(UPLOAD_DIR, input_filename)` (src/main.py
line 33). -/
def input_path (u f : String) : String :=
  os.path.join UPLOAD_DIR (input_filename u f)

/-- `output_midi_path = os.path.splitext(input_path)[0] + ".mid"`
(src/main.py line 34). -/
def output_midi_path (u f : String) : String :=
  (os.path.splitext (input_path u f)).1 ++ ".mid"

/-- The value the handler returns: either the `FileResponse(output_midi_path,
media_type="audio/midi", filename="transcribed_sensitive.mid")` of the
success path (src/main.py lines 73-77), or the dict `{"error": str(e)}` of
the `except` branch (line 83), represented by `errorJson (str e)`. -/
inductive Response where
  | FileResponse (path media_type filename : String)
  | errorJson (message : String)
deriving DecidableEq, Repr

/-- The JSON-object body of a response, as key/value pairs: the error dict
`{"error": message}` has the single key `"error"`; a `FileResponse` body is a
file, not a JSON object. -/
def Response.jsonBody : Response → Option (List (String × String))
  | .FileResponse _ _ _ => none
  | .errorJson m => some [("error", m)]

/-- Modelled from the spec: the HTTP status code the web framework (FastAPI,
an external library not under src/) attaches to the handler's return value.
The handler never sets a status code on any path, so per the spec both a
`FileResponse` and a plain dict body are delivered with the framework's
default success status code 200. -/
def statusCode : Response → Nat
  | .FileResponse _ _ _ => 200
  | .errorJson _ => 200

/-- One request to the handler: the generated uuid, the upload's original
filename, and one oracle per fallible external step (`none` = the step
succeeds, `some e` = it raises an exception with message `e`), plus whether
the `os.remove` in the `finally` block raises. -/
structure RequestEnv where
  uuid : String
  filename : String
  saveErr : Option String
  loadErr : Option String
  transcribeErr : Option String
  postErr : Option String
  writeErr : Option String
  removeFails : Bool

/-- The filesystem, as the set of existing file paths. -/
def FS : Type := String → Bool

/-- Creating (or overwriting) the file at `p`. -/
def FS.write (fs : FS) (p : String) : FS :=
  fun q => if q = p then true else fs q

/-- `os.remove p`. -/
def FS.remove (fs : FS) (p : String) : FS :=
  fun q => if q = p then false else fs q

/-- `os.path.exists p`. -/
def FS.exists (fs : FS) (p : String) : Bool := fs p

/-- The empty filesystem. -/
def emptyFS : FS := fun _ => false

/-- `RegressionPostProcessor` configuration record: the keyword arguments of
its constructor (src/main.py lines 51-58).  Threshold floats are represented
as rationals. -/
structure RegressionPostProcessor where
  frames_per_second : Nat
  classes_num : Nat
  onset_threshold : ℚ
  offset_threshold : ℚ
  frame_threshold : ℚ
  pedal_offset_threshold : ℚ
deriving DecidableEq

/-- The post-processor the handler constructs for a request (src/main.py
lines 51-58): every argument is a module-level constant or a literal, none
depends on the request. -/
def post_processor (_env : RequestEnv) : RegressionPostProcessor :=
  { frames_per_second := 100
    classes_num := 88
    onset_threshold := SENSITIVITY_THRESHOLD
    offset_threshold := 1/2
    frame_threshold := 1/2
    pedal_offset_threshold := 1/5 }

/-- The `try` block of the handler (src/main.py lines 36-77): each pipeline
step either raises (propagating an `Except.error` to the guard) or performs
its filesystem effect.  Saving the upload creates the input file;
`transcriptor.transcribe` writes a default MIDI at `output_midi_path`
(the comment on line 46: "writes a default midi too"); `write_events_to_midi`
writes the final MIDI at `output_midi_path`. -/
def tryBlock (env : RequestEnv) (fs : FS) : Except String Response × FS :=
  match env.saveErr with
  | some e => (.error e, fs)
  | none =>
    let fs1 := fs.write (input_path env.uuid env.filename)
    match env.loadErr with
    | some e => (.error e, fs1)
    | none =>
      match env.transcribeErr with
      | some e => (.error e, fs1)
      | none =>
        let fs2 := fs1.write (output_midi_path env.uuid env.filename)
        match env.postErr with
        | some e => (.error e, fs2)
        | none =>
          match env.writeErr with
          | some e => (.error e, fs2)
          | none =>
            let fs3 := fs2.write (output_midi_path env.uuid env.filename)
            (.ok (.FileResponse (output_midi_path env.uuid env.filename)
                    "audio/midi" "transcribed_sensitive.mid"), fs3)

/-- The `finally` block (src/main.py lines 85-91): if the input file exists,
attempt `os.remove`; a failing remove is swallowed by the bare `except` and
leaves the filesystem as it was. -/
def finallyBlock (env : RequestEnv) (fs : FS) : FS :=
  if fs.exists (input_path env.uuid env.filename) then
    if env.removeFails then fs else fs.remove (input_path env.uuid env.filename)
  else fs

/-- The handler `transcribe` (src/main.py lines 30-91): run the `try` block;
the `except Exception` guard turns a raised exception `e` into the dict
`{"error": str(e)}`; the `finally` block runs on every exit path, after the
return value is determined. -/
def transcribe (env : RequestEnv) (fs : FS) : Response × FS :=
  let r := tryBlock env fs
  let fs2 := finallyBlock env r.2
  (match r.1 with
   | .ok resp => resp
   | .error e => .errorJson e, fs2)

/-- The first exception raised in the pipeline, if any: the steps run in
source order (save, load, transcribe, post-process, write). -/
def firstPipelineError (env : RequestEnv) : Option String :=
  match env.saveErr with
  | some e => some e
  | none =>
    match env.loadErr with
    | some e => some e
    | none =>
      match env.transcribeErr with
      | some e => some e
      | none =>
        match env.postErr with
        | some e => some e
        | none => env.writeErr

/-- A request whose every external step succeeds. -/
def mkEnv (u f : String) : RequestEnv :=
  ⟨u, f, none, none, none, none, none, false⟩

/-- Split at the last dot unconditionally (no leading-dot rule): the form
`splitBase` takes on a basename that starts with a non-dot character, used to
state the shape of `splitextList` on the handler's paths. -/
def lastDotSplit (f : List Char) : List Char × List Char :=
  match splitLastChar '.' f with
  | some r => r
  | none => (f, [])

theorem splitLastChar_eq_none_iff (sep : Char) (l : List Char) :
    splitLastChar sep l = none ↔ sep ∉ l := by
  induction l with
  | nil => simp [splitLastChar]
  | cons c cs ih =>
    rw [splitLastChar]
    cases h : splitLastChar sep cs with
    | some p =>
      have hmem : sep ∈ cs := by
        by_contra hn
        rw [ih.mpr hn] at h
        exact Option.noConfusion h
      obtain ⟨a, e⟩ := p
      simp [List.mem_cons, hmem]
    | none =>
      have hns : sep ∉ cs := ih.mp h
      by_cases hc : c = sep
      · subst hc
        simp
      · simp [hc, List.mem_cons, hns]
        exact Ne.symm hc

theorem splitLastChar_eq_some (sep : Char) (l a e : List Char)
    (h : splitLastChar sep l = some (a, e)) :
    l = a ++ e ∧ ∃ t, e = sep :: t ∧ sep ∉ t := by
  induction l generalizing a e with
  | nil => simp [splitLastChar] at h
  | cons c cs ih =>
    rw [splitLastChar] at h
    cases hcs : splitLastChar sep cs with
    | some p =>
      obtain ⟨x, y⟩ := p
      rw [hcs] at h
      simp only [Option.some.injEq, Prod.mk.injEq] at h
      obtain ⟨ha, he⟩ := h
      obtain ⟨hl, t, ht, hts⟩ := ih x y hcs
      subst ha
      subst he
      exact ⟨by rw [List.cons_append, hl], t, ht, hts⟩
    | none =>
      rw [hcs] at h
      by_cases hc : c = sep
      · subst hc
        rw [if_pos rfl] at h
        injection h with h2
        rw [Prod.mk.injEq] at h2
        obtain ⟨ha, he⟩ := h2
        subst ha
        subst he
        exact ⟨rfl, cs, rfl, (splitLastChar_eq_none_iff _ cs).mp hcs⟩
      · rw [if_neg hc] at h
        exact Option.noConfusion h

theorem splitLastChar_append_last (sep : Char) (a b : List Char) (hb : sep ∉ b) :
    splitLastChar sep (a ++ sep :: b) = some (a, sep :: b) := by
  induction a with
  | nil =>
    rw [List.nil_append, splitLastChar, (splitLastChar_eq_none_iff sep b).mpr hb]
    simp
  | cons c cs ih =>
    rw [List.cons_append, splitLastChar, ih]

theorem splitLastChar_append_some (sep : Char) (a b x e : List Char)
    (h : splitLastChar sep b = some (x, e)) :
    splitLastChar sep (a ++ b) = some (a ++ x, e) := by
  induction a with
  | nil => simpa using h
  | cons c cs ih => rw [List.cons_append, splitLastChar, ih, List.cons_append]

theorem splitLastChar_append_none (sep : Char) (a b : List Char) (ha : sep ∉ a)
    (h : splitLastChar sep b = none) :
    splitLastChar sep (a ++ b) = none := by
  induction a with
  | nil => simpa using h
  | cons c cs ih =>
    have hcs : sep ∉ cs := fun hm => ha (List.mem_cons_of_mem c hm)
    have hc : c ≠ sep := fun hh => ha (hh ▸ List.mem_cons_self c cs)
    rw [List.cons_append, splitLastChar, ih hcs, if_neg hc]

theorem splitBase_fst_append_snd (b : List Char) :
    (splitBase b).1 ++ (splitBase b).2 = b := by
  rw [splitBase]
  cases h : splitLastChar '.' (b.dropWhile (· == '.')) with
  | none => simp
  | some p =>
    obtain ⟨a, e⟩ := p
    obtain ⟨hd, t, ht, hts⟩ := splitLastChar_eq_some '.' _ a e h
    dsimp only
    rw [List.append_assoc, ← hd, List.takeWhile_append_dropWhile]

theorem splitBase_snd_shape (b : List Char) :
    (splitBase b).2 = [] ∨ ∃ t, (splitBase b).2 = '.' :: t ∧ '.' ∉ t := by
  rw [splitBase]
  cases h : splitLastChar '.' (b.dropWhile (· == '.')) with
  | none => left; rfl
  | some p =>
    obtain ⟨a, e⟩ := p
    obtain ⟨hd, t, ht, hts⟩ := splitLastChar_eq_some '.' _ a e h
    right
    exact ⟨t, ht, hts⟩

theorem splitextList_fst_append_snd (p : List Char) :
    (splitextList p).1 ++ (splitextList p).2 = p := by
  rw [splitextList]
  cases h : splitLastChar '/' p with
  | none => exact splitBase_fst_append_snd p
  | some q =>
    obtain ⟨d, e⟩ := q
    obtain ⟨hp, t, ht, hts⟩ := splitLastChar_eq_some '/' p d e h
    subst ht
    dsimp only
    rw [hp]
    simp [List.append_assoc, splitBase_fst_append_snd]

theorem splitextList_snd_shape (p : List Char) :
    (splitextList p).2 = [] ∨ ∃ t, (splitextList p).2 = '.' :: t ∧ '.' ∉ t := by
  rw [splitextList]
  cases h : splitLastChar '/' p with
  | none => exact splitBase_snd_shape p
  | some q =>
    obtain ⟨d, e⟩ := q
    dsimp only
    exact splitBase_snd_shape (e.drop 1)

theorem toList_append (a b : String) : (a ++ b).toList = a.toList ++ b.toList := rfl

theorem mk_append_mk (a b : List Char) :
    String.mk a ++ String.mk b = String.mk (a ++ b) := rfl

theorem mk_toList (s : String) : String.mk s.toList = s := rfl

theorem toList_mk (l : List Char) : (String.mk l).toList = l := rfl

theorem toList_injective (a b : String) (h : a.toList = b.toList) : a = b := by
  rw [← mk_toList a, ← mk_toList b, h]

theorem splitext_fst_append_snd (p : String) :
    (os.path.splitext p).1 ++ (os.path.splitext p).2 = p := by
  rw [os.path.splitext]
  dsimp only
  rw [mk_append_mk, splitextList_fst_append_snd, mk_toList]

theorem input_filename_toList (u f : String) :
    (input_filename u f).toList = u.toList ++ '_' :: f.toList := by
  rw [input_filename, toList_append, toList_append]
  have h1 : ("_" : String).toList = ['_'] := rfl
  rw [h1, List.append_assoc, List.singleton_append]

theorem input_path_toList (u f : String) (hu : '/' ∉ u.toList) :
    (input_path u f).toList = "uploads/".toList ++ u.toList ++ '_' :: f.toList := by
  rw [input_path, os.path.join, UPLOAD_DIR]
  split
  · rename_i l heq
    exfalso
    rw [input_filename_toList] at heq
    cases hu2 : u.toList with
    | nil => rw [hu2] at heq; simp at heq
    | cons c cs =>
      rw [hu2] at heq
      rw [List.cons_append] at heq
      have hc : c = '/' := (List.cons.injEq _ _ _ _ ▸ heq).1
      exact hu (hu2 ▸ (hc ▸ List.mem_cons_self c cs))
  · rw [toList_append, toList_append, input_filename_toList]
    have h2 : ("uploads" : String).toList ++ ("/" : String).toList
        = ("uploads/" : String).toList := rfl
    rw [List.append_assoc, ← List.append_assoc ("uploads" : String).toList, h2,
      List.append_assoc]

theorem splitBase_shape (u f : List Char) (hu2 : '.' ∉ u) :
    splitBase (u ++ '_' :: f) = (u ++ '_' :: (lastDotSplit f).1, (lastDotSplit f).2) := by
  have hdw : (u ++ '_' :: f).dropWhile (· == '.') = u ++ '_' :: f ∧
      (u ++ '_' :: f).takeWhile (· == '.') = [] := by
    cases u with
    | nil => exact ⟨rfl, rfl⟩
    | cons c cs =>
      have hc : (c == '.') = false := by
        have hne : c ≠ '.' := fun hh => hu2 (hh ▸ List.mem_cons_self c cs)
        simpa using hne
      rw [List.cons_append]
      constructor
      · rw [List.dropWhile_cons, hc]
        simp
      · rw [List.takeWhile_cons, hc]
        simp
  rw [splitBase, hdw.1, hdw.2, lastDotSplit]
  cases h : splitLastChar '.' f with
  | some r =>
    obtain ⟨x, e⟩ := r
    have h2 : splitLastChar '.' (('_' : Char) :: f) = some ('_' :: x, e) := by
      rw [splitLastChar, h]
    have h3 := splitLastChar_append_some '.' u (('_' : Char) :: f) ('_' :: x) e h2
    rw [h3]
    dsimp only
    rw [List.nil_append, List.append_cons]
  | none =>
    have h2 : splitLastChar '.' (('_' : Char) :: f) = none := by
      rw [splitLastChar, h]
      rfl
    rw [splitLastChar_append_none '.' u (('_' : Char) :: f) hu2 h2]

theorem splitextList_shape (u f : List Char)
    (hu1 : '/' ∉ u) (hu2 : '.' ∉ u) (hf : '/' ∉ f) :
    splitextList ("uploads/".toList ++ u ++ '_' :: f)
      = ("uploads/".toList ++ u ++ '_' :: (lastDotSplit f).1, (lastDotSplit f).2) := by
  have hsep : '/' ∉ u ++ '_' :: f := by
    intro hm
    rcases List.mem_append.mp hm with hm1 | hm2
    · exact hu1 hm1
    · rcases List.mem_cons.mp hm2 with hm3 | hm4
      · exact absurd hm3 (by decide)
      · exact hf hm4
  have hgen : ∀ x : List Char,
      ("uploads" : String).toList ++ '/' :: (u ++ '_' :: x)
        = ("uploads/" : String).toList ++ u ++ '_' :: x := by
    intro x
    have hup : ("uploads/" : String).toList = ("uploads" : String).toList ++ ['/'] := rfl
    simp [hup, List.append_assoc]
  have h1 : splitLastChar '/' ("uploads/".toList ++ u ++ '_' :: f)
      = some ("uploads".toList, '/' :: (u ++ '_' :: f)) := by
    rw [← hgen f]
    exact splitLastChar_append_last '/' _ _ hsep
  rw [splitextList, h1]
  dsimp only
  rw [List.drop_one, List.tail_cons, splitBase_shape u f hu2]
  dsimp only
  rw [Prod.mk.injEq]
  exact ⟨hgen _, rfl⟩

theorem output_midi_path_toList (u f : String) (hu1 : '/' ∉ u.toList)
    (hu2 : '.' ∉ u.toList) (hf : '/' ∉ f.toList) :
    (output_midi_path u f).toList
      = "uploads/".toList ++ u.toList ++ '_' :: ((lastDotSplit f.toList).1 ++ ".mid".toList) := by
  rw [output_midi_path, toList_append, os.path.splitext]
  dsimp only
  rw [toList_mk, input_path_toList u f hu1,
    splitextList_shape u.toList f.toList hu1 hu2 hf]
  dsimp only
  rw [List.append_assoc, List.append_assoc]
  rfl

theorem lastDotSplit_fst_append_snd (f : List Char) :
    (lastDotSplit f).1 ++ (lastDotSplit f).2 = f := by
  rw [lastDotSplit]
  cases h : splitLastChar '.' f with
  | none => simp
  | some p =>
    obtain ⟨a, e⟩ := p
    exact (splitLastChar_eq_some '.' f a e h).1.symm

theorem lastDotSplit_mid (g : List Char) :
    lastDotSplit (g ++ '.' :: 'm' :: 'i' :: 'd' :: []) = (g, '.' :: 'm' :: 'i' :: 'd' :: []) := by
  rw [lastDotSplit, splitLastChar_append_last '.' g ('m' :: 'i' :: 'd' :: []) (by decide)]

theorem underscore_inj (u1 f1 u2 f2 : List Char) (h1 : '_' ∉ u1) (h2 : '_' ∉ u2)
    (h : u1 ++ '_' :: f1 = u2 ++ '_' :: f2) : u1 = u2 ∧ f1 = f2 := by
  induction u1 generalizing u2 with
  | nil =>
    cases u2 with
    | nil => simpa using h
    | cons b bs =>
      rw [List.nil_append, List.cons_append] at h
      have hb : '_' = b := (List.cons.injEq _ _ _ _ ▸ h).1
      exact absurd (hb ▸ List.mem_cons_self b bs) h2
  | cons a as ih =>
    cases u2 with
    | nil =>
      rw [List.nil_append, List.cons_append] at h
      have ha : a = '_' := (List.cons.injEq _ _ _ _ ▸ h).1
      exact absurd (ha ▸ List.mem_cons_self a as) h1
    | cons b bs =>
      rw [List.cons_append, List.cons_append] at h
      have hab : a = b := (List.cons.injEq _ _ _ _ ▸ h).1
      have htl : as ++ '_' :: f1 = bs ++ '_' :: f2 := (List.cons.injEq _ _ _ _ ▸ h).2
      have h1t : '_' ∉ as := fun hm => h1 (List.mem_cons_of_mem a hm)
      have h2t : '_' ∉ bs := fun hm => h2 (List.mem_cons_of_mem b hm)
      obtain ⟨hu, hf⟩ := ih bs h1t h2t htl
      exact ⟨by rw [hab, hu], hf⟩

theorem output_eq_input_iff (u f : String) :
    output_midi_path u f = input_path u f ↔
      (os.path.splitext (input_path u f)).2 = ".mid" := by
  constructor
  · intro h
    have hr := splitext_fst_append_snd (input_path u f)
    rw [output_midi_path] at h
    have h2 : (os.path.splitext (input_path u f)).1 ++ ".mid"
        = (os.path.splitext (input_path u f)).1 ++ (os.path.splitext (input_path u f)).2 := by
      rw [h, hr]
    have h3 := congrArg String.toList h2
    rw [toList_append, toList_append] at h3
    exact (toList_injective _ _ (List.append_cancel_left h3)).symm
  · intro h
    rw [output_midi_path, ← h, splitext_fst_append_snd]

theorem transcribe_snd (env : RequestEnv) (fs : FS) :
    (transcribe env fs).2 = finallyBlock env (tryBlock env fs).2 := rfl

theorem transcribe_fst_eq (env : RequestEnv) (fs : FS) :
    (transcribe env fs).1 =
      match firstPipelineError env with
      | some e => .errorJson e
      | none => .FileResponse (output_midi_path env.uuid env.filename)
          "audio/midi" "transcribed_sensitive.mid" := by
  obtain ⟨u, f, se, le, te, pe, we, rf⟩ := env
  cases se <;> cases le <;> cases te <;> cases pe <;> cases we <;> rfl

theorem finallyBlock_input (env : RequestEnv) (fs : FS) (h : env.removeFails = false) :
    finallyBlock env fs (input_path env.uuid env.filename) = false := by
  rw [finallyBlock, h]
  by_cases hfs : fs.exists (input_path env.uuid env.filename) = true
  · rw [if_pos hfs]
    simp [FS.remove]
  · rw [if_neg hfs]
    simpa [FS.exists] using hfs

theorem finallyBlock_subset (env : RequestEnv) (fs : FS) (p : String)
    (h : finallyBlock env fs p = true) : fs p = true := by
  rw [finallyBlock] at h
  split at h
  · split at h
    · exact h
    · simp only [FS.remove] at h
      by_cases hp : p = input_path env.uuid env.filename
      · rw [if_pos hp] at h
        exact Bool.noConfusion h
      · rw [if_neg hp] at h
        exact h
  · exact h

theorem write_mem (fs : FS) (q p : String) :
    (fs.write q) p = true ↔ p = q ∨ fs p = true := by
  rw [FS.write]
  by_cases h : p = q
  · simp [h]
  · simp [h]

theorem tryBlock_success (env : RequestEnv) (fs : FS)
    (h : firstPipelineError env = none) :
    tryBlock env fs =
      (.ok (.FileResponse (output_midi_path env.uuid env.filename)
        "audio/midi" "transcribed_sensitive.mid"),
       ((fs.write (input_path env.uuid env.filename)).write
          (output_midi_path env.uuid env.filename)).write
          (output_midi_path env.uuid env.filename)) := by
  obtain ⟨u, f, se, le, te, pe, we, rf⟩ := env
  cases se <;> cases le <;> cases te <;> cases pe <;> cases we <;>
    simp_all [firstPipelineError, tryBlock]

theorem tryBlock_subset (env : RequestEnv) (fs : FS) (p : String)
    (hp : (tryBlock env fs).2 p = true) :
    fs p = true ∨ p = input_path env.uuid env.filename
      ∨ p = output_midi_path env.uuid env.filename := by
  obtain ⟨u, f, se, le, te, pe, we, rf⟩ := env
  cases se <;> cases le <;> cases te <;> cases pe <;> cases we <;>
    simp only [tryBlock, write_mem] at hp <;>
    tauto

theorem transcribe_success_fs (env : RequestEnv) (fs : FS)
    (h : firstPipelineError env = none)
    (hne : output_midi_path env.uuid env.filename ≠ input_path env.uuid env.filename)
    (hrm : env.removeFails = false) :
    (transcribe env fs).2 (output_midi_path env.uuid env.filename) = true ∧
    (transcribe env fs).2 (input_path env.uuid env.filename) = false := by
  constructor
  · rw [transcribe_snd, tryBlock_success env fs h]
    rw [finallyBlock, hrm]
    by_cases hex : (((fs.write (input_path env.uuid env.filename)).write
        (output_midi_path env.uuid env.filename)).write
        (output_midi_path env.uuid env.filename)).exists (input_path env.uuid env.filename) = true
    · rw [if_pos hex]
      simp [FS.remove, FS.write, hne]
    · rw [if_neg hex]
      simp [FS.write]
  · rw [transcribe_snd]
    exact finallyBlock_input _ _ hrm

theorem transcribe_subset (env : RequestEnv) (fs : FS) (p : String)
    (hp : (transcribe env fs).2 p = true) :
    fs p = true ∨ p = input_path env.uuid env.filename
      ∨ p = output_midi_path env.uuid env.filename := by
  rw [transcribe_snd] at hp
  exact tryBlock_subset env fs p (finallyBlock_subset env _ p hp)

/-- C1: whenever any pipeline step (saving the upload, loading the audio,
inference, post-processing, or MIDI writing) raises an exception with message
`e`, the handler's guard catches it and returns the JSON object with the
single key `"error"` mapped to `e`, delivered with the framework's default
success status code 200 (no distinct error status is ever set). -/
theorem claim_error_response (env : RequestEnv) (fs : FS) (e : String)
    (h : firstPipelineError env = some e) :
    (transcribe env fs).1 = Response.errorJson e ∧
    (transcribe env fs).1.jsonBody = some [("error", e)] ∧
    statusCode (transcribe env fs).1 = 200 := by
  refine ⟨?_, ?_, ?_⟩ <;> rw [transcribe_fst_eq env fs, h] <;> rfl

theorem claim_error_response_witness :
    firstPipelineError ⟨"u1", "song.wav", none, some "boom", none, none, none, false⟩
      = some "boom" ∧
    (transcribe ⟨"u1", "song.wav", none, some "boom", none, none, none, false⟩ emptyFS).1
      = Response.errorJson "boom" ∧
    (transcribe ⟨"u1", "song.wav", none, some "boom", none, none, none, false⟩
      emptyFS).1.jsonBody = some [("error", "boom")] ∧
    statusCode (transcribe ⟨"u1", "song.wav", none, some "boom", none, none, none, false⟩
      emptyFS).1 = 200 :=
  ⟨rfl, claim_error_response _ emptyFS "boom" rfl⟩

/-- C3: on every exit path of the handler (success, caught error, or fault in
any pipeline step), the `finally` block attempts removal of the uploaded
input file, and a failure of the removal itself is swallowed: flipping
whether `os.remove` raises never changes the response, and when removal
succeeds the input file is gone from the final filesystem on every exit
path. -/
theorem cleanup_every_exit_path (env : RequestEnv) (fs : FS) (b : Bool)
    (h : env.removeFails = false) :
    (transcribe { env with removeFails := b } fs).1 = (transcribe env fs).1 ∧
    (transcribe env fs).2 (input_path env.uuid env.filename) = false := by
  constructor
  · rw [transcribe_fst_eq, transcribe_fst_eq]
    exact rfl
  · rw [transcribe_snd]
    exact finallyBlock_input env _ h

theorem cleanup_every_exit_path_witness :
    (transcribe ⟨"u1", "a.wav", none, none, some "x", none, none, true⟩ emptyFS).1
      = (transcribe ⟨"u1", "a.wav", none, none, some "x", none, none, false⟩ emptyFS).1 ∧
    (transcribe ⟨"u1", "a.wav", none, none, some "x", none, none, false⟩ emptyFS).2
      (input_path "u1" "a.wav") = false :=
  cleanup_every_exit_path ⟨"u1", "a.wav", none, none, some "x", none, none, false⟩
    emptyFS true rfl

/-- C4: the post-processor is constructed on every request with the same
configuration, fixed at process start: onset threshold equal to the
process-wide `SENSITIVITY_THRESHOLD` (= 0.2), offset threshold 0.5, frame
threshold 0.5, pedal-offset threshold 0.2, 100 frames per second, and 88
pitch classes; nothing is tuned per-request. -/
theorem post_processor_fixed_config (env env2 : RequestEnv) :
    post_processor env =
      { frames_per_second := 100
        classes_num := 88
        onset_threshold := SENSITIVITY_THRESHOLD
        offset_threshold := 1/2
        frame_threshold := 1/2
        pedal_offset_threshold := 1/5 } ∧
    (post_processor env).onset_threshold = SENSITIVITY_THRESHOLD ∧
    SENSITIVITY_THRESHOLD = 1/5 ∧
    (post_processor env).offset_threshold = 1/2 ∧
    (post_processor env).frame_threshold = 1/2 ∧
    (post_processor env).pedal_offset_threshold = 1/5 ∧
    (post_processor env).frames_per_second = 100 ∧
    (post_processor env).classes_num = 88 ∧
    post_processor env = post_processor env2 :=
  ⟨rfl, rfl, rfl, rfl, rfl, rfl, rfl, rfl, rfl⟩

/-- C8: on success the handler returns the produced MIDI file as a
`FileResponse` with media type `audio/midi` and attachment filename
`transcribed_sensitive.mid`, independent of the input. -/
theorem success_response_fixed_media (env : RequestEnv) (fs : FS)
    (h : firstPipelineError env = none) :
    (transcribe env fs).1 = Response.FileResponse
      (output_midi_path env.uuid env.filename) "audio/midi" "transcribed_sensitive.mid" := by
  have h1 := transcribe_fst_eq env fs
  rw [h] at h1
  exact h1

theorem success_response_fixed_media_witness :
    firstPipelineError (mkEnv "u1" "song.wav") = none ∧
    (transcribe (mkEnv "u1" "song.wav") emptyFS).1 = Response.FileResponse
      "uploads/u1_song.mid" "audio/midi" "transcribed_sensitive.mid" :=
  ⟨rfl, by
    have h := success_response_fixed_media (mkEnv "u1" "song.wav") emptyFS rfl
    rw [h]
    rfl⟩

/-- C10: the handler is total at its interface: for every request it returns
either the fixed `FileResponse` (exactly when no pipeline step raises) or the
JSON object whose single key is `"error"` (exactly when the first raised
exception has message `e`); no exception propagates to the caller. -/
theorem handler_total_interface (env : RequestEnv) (fs : FS) :
    (firstPipelineError env = none ∧
      (transcribe env fs).1 = Response.FileResponse
        (output_midi_path env.uuid env.filename) "audio/midi" "transcribed_sensitive.mid") ∨
    (∃ e, firstPipelineError env = some e ∧
      (transcribe env fs).1 = Response.errorJson e ∧
      (transcribe env fs).1.jsonBody = some [("error", e)]) := by
  have h1 := transcribe_fst_eq env fs
  cases h : firstPipelineError env with
  | none =>
    left
    rw [h] at h1
    exact ⟨rfl, h1⟩
  | some e =>
    right
    rw [h] at h1
    exact ⟨e, rfl, h1, by rw [h1]; rfl⟩

/-- C2 counterexample: a request whose upload is named `song.mid` completes
successfully (the handler returns the `FileResponse`), yet after the handler
finishes the output MIDI path — which coincides with the input path
`uploads/u1_song.mid` — no longer exists on disk, because the `finally`
block removed it. -/
theorem output_removed_for_mid_upload :
    (transcribe (mkEnv "u1" "song.mid") emptyFS).1
      = Response.FileResponse (output_midi_path "u1" "song.mid")
          "audio/midi" "transcribed_sensitive.mid" ∧
    output_midi_path "u1" "song.mid" = "uploads/u1_song.mid" ∧
    input_path "u1" "song.mid" = "uploads/u1_song.mid" ∧
    (transcribe (mkEnv "u1" "song.mid") emptyFS).2 "uploads/u1_song.mid" = false :=
  ⟨by decide, by decide, by decide, by decide⟩

/-- C2 (amended): for every request that completes successfully, whose
upload's extension is not `.mid` (so the derived output path differs from
the input path), and whose `os.remove` of the input succeeds, after the
handler finishes the uploaded input file no longer exists on disk while the
output MIDI file does. -/
theorem success_cleanup_amended (env : RequestEnv) (fs : FS)
    (h : firstPipelineError env = none)
    (hext : (os.path.splitext (input_path env.uuid env.filename)).2 ≠ ".mid")
    (hrm : env.removeFails = false) :
    (transcribe env fs).1 = Response.FileResponse
      (output_midi_path env.uuid env.filename) "audio/midi" "transcribed_sensitive.mid" ∧
    (transcribe env fs).2 (input_path env.uuid env.filename) = false ∧
    (transcribe env fs).2 (output_midi_path env.uuid env.filename) = true := by
  have hne : output_midi_path env.uuid env.filename ≠ input_path env.uuid env.filename :=
    fun hh => hext ((output_eq_input_iff _ _).mp hh)
  obtain ⟨ho, hi⟩ := transcribe_success_fs env fs h hne hrm
  refine ⟨?_, hi, ho⟩
  rw [transcribe_fst_eq env fs, h]

theorem success_cleanup_amended_witness :
    firstPipelineError (mkEnv "u1" "song.wav") = none ∧
    (os.path.splitext (input_path "u1" "song.wav")).2 ≠ ".mid" ∧
    (mkEnv "u1" "song.wav").removeFails = false ∧
    ((transcribe (mkEnv "u1" "song.wav") emptyFS).1 = Response.FileResponse
        (output_midi_path "u1" "song.wav") "audio/midi" "transcribed_sensitive.mid" ∧
      (transcribe (mkEnv "u1" "song.wav") emptyFS).2 (input_path "u1" "song.wav") = false ∧
      (transcribe (mkEnv "u1" "song.wav") emptyFS).2 (output_midi_path "u1" "song.wav") = true) :=
  ⟨rfl, by decide, rfl,
    success_cleanup_amended (mkEnv "u1" "song.wav") emptyFS rfl (by decide) rfl⟩

/-- C9: when the uploaded original filename ends in `.mid`, the computed
output MIDI path equals the input path; a successful request then returns a
`FileResponse` naming that path, and the `finally` cleanup removes the file,
so the file referenced by the returned response no longer exists when the
handler completes. -/
theorem mid_extension_self_collision (env : RequestEnv) (fs : FS) (g : String)
    (hf : env.filename = g ++ ".mid")
    (hu1 : '/' ∉ env.uuid.toList) (hu2 : '.' ∉ env.uuid.toList)
    (hfl : '/' ∉ env.filename.toList)
    (h : firstPipelineError env = none) (hrm : env.removeFails = false) :
    output_midi_path env.uuid env.filename = input_path env.uuid env.filename ∧
    (transcribe env fs).1 = Response.FileResponse
      (output_midi_path env.uuid env.filename) "audio/midi" "transcribed_sensitive.mid" ∧
    (transcribe env fs).2 (output_midi_path env.uuid env.filename) = false := by
  have hmidList : (g ++ (".mid" : String)).toList
      = g.toList ++ '.' :: 'm' :: 'i' :: 'd' :: [] := by
    rw [toList_append]
    rfl
  have hsnd : (os.path.splitext (input_path env.uuid env.filename)).2 = ".mid" := by
    rw [os.path.splitext]
    dsimp only
    rw [input_path_toList _ _ hu1, splitextList_shape _ _ hu1 hu2 hfl]
    dsimp only
    rw [hf, hmidList, lastDotSplit_mid]
  have heq := (output_eq_input_iff env.uuid env.filename).mpr hsnd
  refine ⟨heq, ?_, ?_⟩
  · rw [transcribe_fst_eq env fs, h]
  · rw [heq, transcribe_snd]
    exact finallyBlock_input env _ hrm

theorem mid_extension_self_collision_witness :
    (mkEnv "u1" "song.mid").filename = "song" ++ ".mid" ∧
    '/' ∉ ("u1" : String).toList ∧ '.' ∉ ("u1" : String).toList ∧
    '/' ∉ ("song.mid" : String).toList ∧
    firstPipelineError (mkEnv "u1" "song.mid") = none ∧
    (mkEnv "u1" "song.mid").removeFails = false ∧
    (output_midi_path "u1" "song.mid" = input_path "u1" "song.mid" ∧
      (transcribe (mkEnv "u1" "song.mid") emptyFS).1 = Response.FileResponse
        (output_midi_path "u1" "song.mid") "audio/midi" "transcribed_sensitive.mid" ∧
      (transcribe (mkEnv "u1" "song.mid") emptyFS).2 (output_midi_path "u1" "song.mid")
        = false) :=
  ⟨by decide, by decide, by decide, by decide, rfl, rfl,
    mid_extension_self_collision (mkEnv "u1" "song.mid") emptyFS "song" (by decide)
      (by decide) (by decide) (by decide) rfl rfl⟩

/-- C5 counterexample: the process creates no `outputs/` directory at
startup — `os.makedirs` is called only for `uploads` — and the output MIDI
path of a concrete request lies inside the uploads directory, not in any
output directory. -/
theorem no_outputs_dir_counterexample :
    ("outputs" ∈ startupDirs → False) ∧
    startupDirs = ["uploads"] ∧
    output_midi_path "u1" "song.wav" = "uploads/u1_song.mid" :=
  ⟨by decide, by decide, by decide⟩

/-- C5 (amended): at startup the process creates only the `uploads/`
directory (no `outputs/` directory exists); the output MIDI file of a
request is created inside the uploads directory — its path starts with
`uploads/` — and is left on disk after a successful request whose upload's
extension is not `.mid`. -/
theorem startup_dirs_and_output_location (env : RequestEnv) (fs : FS)
    (hu1 : '/' ∉ env.uuid.toList) (hu2 : '.' ∉ env.uuid.toList)
    (hfl : '/' ∉ env.filename.toList)
    (hext : (os.path.splitext (input_path env.uuid env.filename)).2 ≠ ".mid")
    (h : firstPipelineError env = none) (hrm : env.removeFails = false) :
    startupDirs = [UPLOAD_DIR] ∧ UPLOAD_DIR = "uploads" ∧
    ("outputs" ∈ startupDirs → False) ∧
    (output_midi_path env.uuid env.filename).toList.take 8 = "uploads/".toList ∧
    (transcribe env fs).2 (output_midi_path env.uuid env.filename) = true := by
  have hne : output_midi_path env.uuid env.filename ≠ input_path env.uuid env.filename :=
    fun hh => hext ((output_eq_input_iff _ _).mp hh)
  refine ⟨rfl, rfl, by decide, ?_, (transcribe_success_fs env fs h hne hrm).1⟩
  rw [output_midi_path_toList _ _ hu1 hu2 hfl, List.append_assoc]
  have h8 : ("uploads/" : String).toList.length = 8 := rfl
  rw [← h8, List.take_left]

theorem startup_dirs_and_output_location_witness :
    '/' ∉ ("u1" : String).toList ∧ '.' ∉ ("u1" : String).toList ∧
    '/' ∉ ("song.wav" : String).toList ∧
    (os.path.splitext (input_path "u1" "song.wav")).2 ≠ ".mid" ∧
    firstPipelineError (mkEnv "u1" "song.wav") = none ∧
    (startupDirs = [UPLOAD_DIR] ∧ UPLOAD_DIR = "uploads" ∧
      ("outputs" ∈ startupDirs → False) ∧
      (output_midi_path "u1" "song.wav").toList.take 8 = "uploads/".toList ∧
      (transcribe (mkEnv "u1" "song.wav") emptyFS).2 (output_midi_path "u1" "song.wav")
        = true) :=
  ⟨by decide, by decide, by decide, by decide, rfl,
    startup_dirs_and_output_location (mkEnv "u1" "song.wav") emptyFS (by decide)
      (by decide) (by decide) (by decide) rfl rfl⟩

/-- C7: the uploaded file is stored at path `uploads/<uuid>_<original
filename>`, and the output MIDI path is the input path with its extension
replaced by `.mid`: the input path splits as `stem ++ ext` with `ext` empty
or dot-initial, and the output path is `stem ++ ".mid"`. -/
theorem upload_naming_and_extension_replacement (u f : String)
    (hu : '/' ∉ u.toList) :
    input_path u f = "uploads/" ++ input_filename u f ∧
    input_filename u f = u ++ "_" ++ f ∧
    ∃ stem ext : String, os.path.splitext (input_path u f) = (stem, ext) ∧
      stem ++ ext = input_path u f ∧
      output_midi_path u f = stem ++ ".mid" ∧
      (ext = "" ∨ ∃ t, ext.toList = '.' :: t ∧ '.' ∉ t) := by
  refine ⟨?_, rfl, (os.path.splitext (input_path u f)).1,
    (os.path.splitext (input_path u f)).2, rfl, splitext_fst_append_snd _, rfl, ?_⟩
  · apply toList_injective
    rw [input_path_toList u f hu, toList_append, input_filename_toList, List.append_assoc]
  · have hs := splitextList_snd_shape (input_path u f).toList
    rcases hs with hs | ⟨t, ht, hts⟩
    · left
      rw [os.path.splitext]
      dsimp only
      rw [hs]
    · right
      refine ⟨t, ?_, hts⟩
      rw [os.path.splitext]
      dsimp only
      rw [toList_mk, ht]

theorem upload_naming_and_extension_replacement_witness :
    '/' ∉ ("u1" : String).toList ∧
    (input_path "u1" "song.wav" = "uploads/" ++ input_filename "u1" "song.wav" ∧
      input_filename "u1" "song.wav" = "u1" ++ "_" ++ "song.wav" ∧
      ∃ stem ext : String, os.path.splitext (input_path "u1" "song.wav") = (stem, ext) ∧
        stem ++ ext = input_path "u1" "song.wav" ∧
        output_midi_path "u1" "song.wav" = stem ++ ".mid" ∧
        (ext = "" ∨ ∃ t, ext.toList = '.' :: t ∧ '.' ∉ t)) :=
  ⟨by decide, upload_naming_and_extension_replacement "u1" "song.wav" (by decide)⟩

/-- C6: a request creates files only at its own input and output paths (at
most one input file and one output file beyond what already existed), and
for any two requests whose generated UUIDs differ — UUID strings contain no
`/`, `.` or `_` — the input paths and output paths never collide with each
other, regardless of the uploaded content or filenames. -/
theorem unique_paths_no_collision (u1 f1 u2 f2 : String)
    (env : RequestEnv) (fs : FS) (p : String)
    (hu11 : '/' ∉ u1.toList) (hu12 : '.' ∉ u1.toList) (hu13 : '_' ∉ u1.toList)
    (hu21 : '/' ∉ u2.toList) (hu22 : '.' ∉ u2.toList) (hu23 : '_' ∉ u2.toList)
    (hf1 : '/' ∉ f1.toList) (hf2 : '/' ∉ f2.toList)
    (hne : u1 ≠ u2)
    (henvu : env.uuid = u1) (henvf : env.filename = f1)
    (hp : (transcribe env fs).2 p = true) :
    input_path u1 f1 ≠ input_path u2 f2 ∧
    output_midi_path u1 f1 ≠ output_midi_path u2 f2 ∧
    input_path u1 f1 ≠ output_midi_path u2 f2 ∧
    output_midi_path u1 f1 ≠ input_path u2 f2 ∧
    (fs p = true ∨ p = input_path u1 f1 ∨ p = output_midi_path u1 f1) := by
  have key : ∀ x y : List Char,
      "uploads/".toList ++ u1.toList ++ '_' :: x
        = "uploads/".toList ++ u2.toList ++ '_' :: y → False := by
    intro x y hxy
    rw [List.append_assoc, List.append_assoc] at hxy
    have h2 := List.append_cancel_left hxy
    obtain ⟨hu, -⟩ := underscore_inj _ _ _ _ hu13 hu23 h2
    exact hne (toList_injective _ _ hu)
  refine ⟨?_, ?_, ?_, ?_, ?_⟩
  · intro hh
    apply key f1.toList f2.toList
    rw [← input_path_toList u1 f1 hu11, ← input_path_toList u2 f2 hu21, hh]
  · intro hh
    apply key ((lastDotSplit f1.toList).1 ++ ".mid".toList)
      ((lastDotSplit f2.toList).1 ++ ".mid".toList)
    rw [← output_midi_path_toList u1 f1 hu11 hu12 hf1,
      ← output_midi_path_toList u2 f2 hu21 hu22 hf2, hh]
  · intro hh
    apply key f1.toList ((lastDotSplit f2.toList).1 ++ ".mid".toList)
    rw [← input_path_toList u1 f1 hu11,
      ← output_midi_path_toList u2 f2 hu21 hu22 hf2, hh]
  · intro hh
    apply key ((lastDotSplit f1.toList).1 ++ ".mid".toList) f2.toList
    rw [← output_midi_path_toList u1 f1 hu11 hu12 hf1,
      ← input_path_toList u2 f2 hu21, hh]
  · have hsub := transcribe_subset env fs p hp
    rw [henvu, henvf] at hsub
    exact hsub

theorem unique_paths_no_collision_witness :
    '/' ∉ ("123e4567-e89b-12d3-a456-426614174000" : String).toList ∧
    '.' ∉ ("123e4567-e89b-12d3-a456-426614174000" : String).toList ∧
    '_' ∉ ("123e4567-e89b-12d3-a456-426614174000" : String).toList ∧
    '/' ∉ ("123e4567-e89b-12d3-a456-426614174001" : String).toList ∧
    '.' ∉ ("123e4567-e89b-12d3-a456-426614174001" : String).toList ∧
    '_' ∉ ("123e4567-e89b-12d3-a456-426614174001" : String).toList ∧
    ("123e4567-e89b-12d3-a456-426614174000" : String)
      ≠ "123e4567-e89b-12d3-a456-426614174001" ∧
    (input_path "123e4567-e89b-12d3-a456-426614174000" "song.wav"
        ≠ input_path "123e4567-e89b-12d3-a456-426614174001" "song.wav" ∧
      output_midi_path "123e4567-e89b-12d3-a456-426614174000" "song.wav"
        ≠ output_midi_path "123e4567-e89b-12d3-a456-426614174001" "song.wav" ∧
      input_path "123e4567-e89b-12d3-a456-426614174000" "song.wav"
        ≠ output_midi_path "123e4567-e89b-12d3-a456-426614174001" "song.wav" ∧
      output_midi_path "123e4567-e89b-12d3-a456-426614174000" "song.wav"
        ≠ input_path "123e4567-e89b-12d3-a456-426614174001" "song.wav" ∧
      (emptyFS (output_midi_path "123e4567-e89b-12d3-a456-426614174000" "song.wav") = true ∨
        output_midi_path "123e4567-e89b-12d3-a456-426614174000" "song.wav"
          = input_path "123e4567-e89b-12d3-a456-426614174000" "song.wav" ∨
        output_midi_path "123e4567-e89b-12d3-a456-426614174000" "song.wav"
          = output_midi_path "123e4567-e89b-12d3-a456-426614174000" "song.wav")) :=
  ⟨by decide, by decide, by decide, by decide, by decide, by decide, by decide,
    unique_paths_no_collision "123e4567-e89b-12d3-a456-426614174000" "song.wav"
      "123e4567-e89b-12d3-a456-426614174001" "song.wav"
      (mkEnv "123e4567-e89b-12d3-a456-426614174000" "song.wav") emptyFS
      (output_midi_path "123e4567-e89b-12d3-a456-426614174000" "song.wav")
      (by decide) (by decide) (by decide) (by decide) (by decide) (by decide)
      (by decide) (by decide) (by decide) rfl rfl (by decide)⟩

end Main
